import Mathlib

/-!
Verification model of hphp/runtime/vm/extern-compiler.cpp: the pooled
out-of-process compiler client.  Pure functions model the framing protocol
(writeMessage, readProgram, readVersion), the worker state machine
(start, stop, compile, detach_from_process) and the pool (slot vector,
free count, retry loop).  Library calls (folly::dynamic, fread, kill,
waitpid) are modelled at the boundary with explicit semantics.
-/

namespace ExternCompilerModel

/-- Model of a folly::dynamic value, restricted to the shapes the protocol
uses: null, booleans, 64-bit integers, strings and objects. -/
inductive JVal where
  | null
  | bool (b : Bool)
  | num (n : Int)
  | str (s : String)
  | obj (fields : List (String × JVal))

mutual

/-- Model of folly::toJson on the JVal subset: objects serialize their
fields in stored order. -/
def JVal.toJson : JVal → String
  | .null => "null"
  | .bool b => cond b "true" "false"
  | .num n => toString n
  | .str s => "\"" ++ s ++ "\""
  | .obj fs => "\x7b" ++ JVal.toJsonFields fs ++ "\x7d"

/-- Serialization of the field list of a JSON object. -/
def JVal.toJsonFields : List (String × JVal) → String
  | [] => ""
  | [(k, v)] => "\"" ++ k ++ "\":" ++ JVal.toJson v
  | (k, v) :: rest =>
      "\"" ++ k ++ "\":" ++ JVal.toJson v ++ "," ++ JVal.toJsonFields rest

end

/-- Exception taxonomy of the source.  CompileException is the transport
error; runtime_error covers CompileError replies (std::runtime_error);
parseError models folly::json::parse_error; outOfRange models
std::out_of_range thrown by dynamic::at on a missing key; typeError models
folly::TypeError; badCompiler models BadCompilerException. -/
inductive Exc where
  | compileExc (msg : String)
  | runtimeErr (msg : String)
  | parseError
  | outOfRange
  | typeError
  | badCompiler (msg : String)
deriving Repr, DecidableEq

/-- Model of folly::errnoStr: some textual rendering of the errno value.
The exact text is irrelevant; injectivity in the errno value is all the
theorems use. -/
def errnoStr (e : Nat) : String := toString e

/-- Model of throwErrno (extern-compiler.cpp line 56): a CompileException
whose message carries the errno string. -/
def throwErrnoMsg (what : String) (e : Nat) : Exc :=
  .compileExc (what ++ ": " ++ errnoStr e)

/-- Model of folly dynamic operator[] assignment on an object: replace the
value of an existing key or append a fresh binding. -/
def setField : List (String × JVal) → String → JVal → List (String × JVal)
  | [], k, v => [(k, v)]
  | (k0, v0) :: rest, k, v =>
      if k0 = k then (k, v) :: rest else (k0, v0) :: setField rest k v

/-- Model of folly dynamic getDefault: on an object return the bound value
or the default; on any other shape folly throws TypeError. -/
def getDefaultE (j : JVal) (k : String) (dflt : JVal) : Except Exc JVal :=
  match j with
  | .obj fs => .ok ((fs.lookup k).getD dflt)
  | _ => .error .typeError

/-- Model of folly dynamic asString: strings pass through, booleans and
integers convert, other shapes throw TypeError.  (The exact conversion text
for non-strings is never exercised by the protocol.) -/
def JVal.asStringE : JVal → Except Exc String
  | .str s => .ok s
  | .bool b => .ok (cond b "true" "false")
  | .num n => .ok (toString n)
  | _ => .error .typeError

/-- Model of folly dynamic asInt: integers pass through, booleans convert,
other shapes throw TypeError.  (folly also parses numeric strings; that
conversion is never exercised by the protocol.) -/
def JVal.asIntE : JVal → Except Exc Int
  | .num n => .ok n
  | .bool b => .ok (cond b 1 0)
  | _ => .error .typeError

/-- One observable effect of writeMessage on the stdin pipe: a chunk of
bytes written, or a flush. -/
inductive WChunk where
  | write (s : String)
  | flush
deriving Repr, DecidableEq

/-- Concatenation of all bytes written in a chunk list. -/
def chunksOut : List WChunk → String
  | [] => ""
  | .write s :: rest => s ++ chunksOut rest
  | .flush :: rest => chunksOut rest

/-- Model of ExternCompiler::writeMessage (extern-compiler.cpp lines
359 to 373).  The header is mutated (bytes field set), the JSON header line
plus newline is written by fprintf, then, only when the body is non-empty,
the body is written by a single fwrite; fflush follows.  fprintfOk and
fwriteOk model success of the two C I/O calls; on failure throwErrno raises
a CompileException carrying errno.  Returns the chunk trace and the mutated
header. -/
def writeMessage (header : List (String × JVal)) (body : String)
    (fprintfOk fwriteOk : Bool) (errnoV : Nat) :
    Except Exc (List WChunk × List (String × JVal)) :=
  let bytes := body.length
  let header2 := setField header "bytes" (.num bytes)
  let jsonHeader := JVal.toJson (.obj header2)
  if fprintfOk = false ∨ (0 < bytes ∧ fwriteOk = false) then
    .error (throwErrnoMsg "error writing message" errnoV)
  else
    .ok ((WChunk.write (jsonHeader ++ "\n") ::
          (if 0 < bytes then [WChunk.write body] else [])) ++ [WChunk.flush],
         header2)

/-- Model of fread(ptr, size, nmemb, f) item semantics on a stream holding
avail bytes: per the C standard, if size or nmemb is zero fread returns
zero; otherwise it returns the number of complete items read. -/
def freadItems (size nmemb avail : Nat) : Nat :=
  if size = 0 ∨ nmemb = 0 then 0 else min nmemb (avail / size)

/-- Model of ExternCompiler::readProgram after the header line has been
read and parsed (extern-compiler.cpp lines 327 to 347).  The stream holds
the bytes that follow the header line on the stdout pipe.  Returns the
result of the call together with the stream that remains unread.  The type
and bytes fields are extracted with getDefault/asString/asInt before the
dispatch; on the hhas branch a single fread of the full body must return
exactly one item or throwErrno raises a CompileException; on the error
branch the body is never read. -/
def readProgramCore (header : JVal) (stream : List Char) (errnoV : Nat) :
    Except Exc String × List Char :=
  match getDefaultE header "type" (JVal.str "") with
  | .error e => (.error e, stream)
  | .ok tv =>
    match tv.asStringE with
    | .error e => (.error e, stream)
    | .ok type =>
      match getDefaultE header "bytes" (JVal.num 0) with
      | .error e => (.error e, stream)
      | .ok bv =>
        match bv.asIntE with
        | .error e => (.error e, stream)
        | .ok bytesI =>
          let bytes := (bytesI % (2 : Int) ^ 64).toNat
          if type = "hhas" then
            if freadItems bytes 1 stream.length = 1 then
              (.ok (String.mk (stream.take bytes)), stream.drop bytes)
            else
              (.error (throwErrnoMsg "reading input program" errnoV),
               stream.drop (min bytes stream.length))
          else if type = "error" then
            match getDefaultE header "error"
                (JVal.str "[no \x27error\x27 field]") with
            | .error e => (.error e, stream)
            | .ok ev =>
              match ev.asStringE with
              | .error e => (.error e, stream)
              | .ok msg => (.error (.runtimeErr msg), stream)
          else
            (.error (.runtimeErr ("unknown message type, " ++ type)), stream)

/-- Model of ExternCompiler::readVersion (extern-compiler.cpp lines 317 to
323).  line is the outcome of readline on stdout (a failed getline throws
a CompileException carrying errno); parse models folly::parseJson, whose
failure is a parse_error; dynamic::at on an object missing the key throws
std::out_of_range and on a non-object throws TypeError; asString on a
non-convertible shape throws TypeError. -/
def readVersion (line : Except Nat String) (parse : String → Option JVal) :
    Except Exc String :=
  match line with
  | .error e => .error (throwErrnoMsg "error reading line" e)
  | .ok l =>
    match parse l with
    | none => .error .parseError
    | some j =>
      match j with
      | .obj fs =>
        match fs.lookup "version" with
        | none => .error .outOfRange
        | some v => v.asStringE
      | _ => .error .typeError

/-- Model of the version handshake inside ExternCompiler::start
(extern-compiler.cpp lines 609 to 616): readVersion runs under a catch
clause that converts a CompileException, and only a CompileException, into
a BadCompilerException. -/
def startHandshake (line : Except Nat String)
    (parse : String → Option JVal) : Except Exc String :=
  match readVersion line parse with
  | .ok v => .ok v
  | .error (.compileExc _) =>
      .error (.badCompiler
        "Couldn\x27t read version message from external compiler")
  | .error e => .error e

/-- Sentinel pid value (extern-compiler.cpp line 68). -/
def kInvalidPid : Int := -1

/-- Mutable state of one ExternCompiler worker (extern-compiler.cpp lines
156 to 164).  Handles are modelled by whether they are non-null. -/
structure WorkerState where
  m_pid : Int := kInvalidPid
  m_in : Bool := false
  m_out : Bool := false
  m_err : Bool := false
  m_version : String := ""
  m_compilations : Nat := 0
deriving Repr, DecidableEq

/-- Model of ExternCompiler::isRunning (extern-compiler.cpp line 146). -/
def isRunning (w : WorkerState) : Bool := w.m_pid != kInvalidPid

/-- Model of ExternCompiler::detach_from_process (extern-compiler.cpp
lines 76 to 80): only the inherited pid is reset to the sentinel. -/
def detach_from_process (w : WorkerState) : WorkerState :=
  { w with m_pid := kInvalidPid }

/-- Observable process-management action of the stop sequence. -/
inductive Action where
  | kill (pid : Int)
  | wait (pid : Int)
deriving Repr, DecidableEq

/-- Model of ExternCompiler::stopLogStderrThread (extern-compiler.cpp
lines 349 to 357): closes the stderr handle (unblocking the drain thread)
and nulls it. -/
def stopLogStderrThread (w : WorkerState) : WorkerState :=
  { w with m_err := false }

/-- Model of ExternCompiler::stop (extern-compiler.cpp lines 474 to 529).
The stderr-thread teardown runs on every exit via SCOPE_EXIT.  If the pid
is the sentinel the function returns at once.  Otherwise the compilation
counter is zeroed, SIGTERM is sent (failure only logs), the bounded
waitpid runs (failure logs and returns early), and on every exit from that
region a SCOPE_EXIT closes stdin and stdout and resets the pid to the
sentinel.  killOk and waitOk model success of kill and waitpid; they
affect only logging, never the resulting state or the action trace. -/
def stop (w : WorkerState) (_killOk _waitOk : Bool) :
    WorkerState × List Action :=
  if w.m_pid = kInvalidPid then
    (stopLogStderrThread w, [])
  else
    (stopLogStderrThread
      { w with m_in := false, m_out := false,
               m_pid := kInvalidPid, m_compilations := 0 },
     [Action.kill w.m_pid, Action.wait w.m_pid])

/-- Model of the state effect of ExternCompiler::start (extern-compiler.cpp
lines 551 to 626) on the successful spawn path: if already running, return
at once; otherwise spawn the subprocess (pid becomes spawnPid) and retain
the three pipe handles.  The handshake and config push are modelled
separately (startHandshake). -/
def start (w : WorkerState) (spawnPid : Int) : WorkerState :=
  if w.m_pid != kInvalidPid then w
  else { w with m_pid := spawnPid, m_in := true, m_out := true,
                m_err := true }

/-- Outcome of the transport phase (writeProgram then readProgram) of one
worker compile: a program text, a CompileException, or a CompileError
carried by std::runtime_error. -/
inductive TransportOutcome where
  | ok (prog : String)
  | transportFail (msg : String)
  | compileFail (msg : String)
deriving Repr, DecidableEq

/-- Model of ExternCompiler::compile (extern-compiler.cpp lines 83 to 136).
resetThreshold models RuntimeOption::EvalHackCompilerReset (0 disables the
opportunistic restart); spawnPid is the pid the spawn would produce;
outcome abstracts the transport phase.  Returns the result, the worker
state afterwards, and whether this call performed a spawn.  On a
CompileException the worker is stopped before the exception propagates; on
a runtime_error the worker state is kept. -/
def compileWorker (w : WorkerState) (resetThreshold : Nat) (spawnPid : Int)
    (outcome : TransportOutcome) :
    Except Exc String × WorkerState × Bool :=
  let w1 := if resetThreshold ≠ 0 ∧ w.m_compilations > resetThreshold then
              (stop w true true).1
            else w
  let spawned := !(isRunning w1)
  let w2 := if isRunning w1 then w1 else start w1 spawnPid
  let w3 := { w2 with m_compilations := w2.m_compilations + 1 }
  match outcome with
  | .ok prog => (.ok prog, w3, spawned)
  | .transportFail m => (.error (.compileExc m), (stop w3 true true).1, spawned)
  | .compileFail m => (.error (.runtimeErr m), w3, spawned)

/-- Model of CompilerPool::shutdown (extern-compiler.cpp lines 253 to 261)
restricted to its observable process-management actions: every slot is
exchanged to empty; a null slot contributes nothing; a worker is first
detached when detach mode is requested, then destroyed, which runs its
stop sequence. -/
def shutdownActions (workers : List (Option WorkerState))
    (detach_compilers : Bool) : List Action :=
  workers.foldr
    (fun c acc =>
      match c with
      | none => acc
      | some w =>
        let w2 := if detach_compilers then detach_from_process w else w
        (stop w2 true true).2 ++ acc)
    []

/-- State of the CompilerPool slot machinery (extern-compiler.cpp lines
186 to 191): the AtomicVector of worker pointers (none models nullptr) and
the free count.  Workers are identified by positive numbers. -/
structure PoolState where
  m_compilers : List (Option Nat)
  m_freeCount : Nat
deriving Repr, DecidableEq

/-- Number of non-empty slots. -/
def countSome (l : List (Option Nat)) : Nat :=
  (l.filter fun o => o.isSome).length

/-- Model of the scan loop of CompilerPool::getCompiler (extern-compiler.cpp
lines 223 to 226): exchange each slot with nullptr in index order and
return the first non-null pointer together with its index and the slot
vector afterwards. -/
def scanSlots : List (Option Nat) → Option (Nat × Nat × List (Option Nat))
  | [] => none
  | none :: rest =>
    match scanSlots rest with
    | none => none
    | some (i, w, rest2) => some (i + 1, w, none :: rest2)
  | some w :: rest => some (0, w, none :: rest)

/-- Result of one completed CompilerPool::getCompiler call: wouldBlock
models the condition-variable wait when the free count is zero; notReached
models falling off the scan into not_reached(). -/
inductive GetResult where
  | wouldBlock
  | notReached
  | ok (id : Nat) (w : Nat) (p : PoolState)
deriving Repr, DecidableEq

/-- Model of CompilerPool::getCompiler (extern-compiler.cpp lines 215 to
229): under the mutex, wait until the free count is nonzero, decrement it,
then scan the slots for a worker to take. -/
def getCompiler (p : PoolState) : GetResult :=
  if p.m_freeCount = 0 then .wouldBlock
  else
    match scanSlots p.m_compilers with
    | some (i, w, slots2) => .ok i w ⟨slots2, p.m_freeCount - 1⟩
    | none => .notReached

/-- Model of CompilerPool::releaseCompiler (extern-compiler.cpp lines 231
to 239): store the worker back into its slot and increment the free
count. -/
def releaseCompiler (p : PoolState) (id : Nat) (w : Nat) : PoolState :=
  ⟨p.m_compilers.set id (some w), p.m_freeCount + 1⟩

/-- Model of the slot initialization in CompilerPool::start
(extern-compiler.cpp lines 241 to 247): the free count is set to the
worker count and every slot receives a fresh non-null worker. -/
def poolStart (nworkers : Nat) : PoolState :=
  ⟨(List.range nworkers).map fun i => some (i + 1), nworkers⟩

/-- Pool invariant at a quiescent point: the free count equals the number
of non-empty slots and the slot vector has the configured capacity. -/
def PoolInv (p : PoolState) (cap : Nat) : Prop :=
  p.m_freeCount = countSome p.m_compilers ∧ p.m_compilers.length = cap

/-- Outcome of one attempt of the worker compile as seen by the pool retry
loop: success, a CompileException, or a std::runtime_error. -/
inductive AttemptOutcome where
  | success (artifact : String)
  | transport (msg : String)
  | fatal (msg : String)
deriving Repr, DecidableEq

/-- CompilerResult (sum of a unit-emitter artifact and an error string),
with the artifact represented by the program text it was assembled from. -/
inductive CompileRes where
  | artifact (s : String)
  | errString (s : String)
deriving Repr, DecidableEq

/-- Observable lease and attempt events of one CompilerPool::compile
call. -/
inductive PEvent where
  | acquireEv
  | attemptEv (i : Nat)
  | releaseEv
deriving Repr, DecidableEq

/-- Attempt bound of the retry loop (extern-compiler.cpp lines 272 to 275):
std::max<size_t>(1, maxRetries + 1), where maxRetries + 1 wraps at 2^64
because maxRetries is a uint64_t. -/
def maxAttempts (maxRetries : Nat) : Nat :=
  max 1 ((maxRetries + 1) % 2 ^ 64)

/-- Model of the while loop of CompilerPool::compile (extern-compiler.cpp
lines 276 to 291).  fuel is max - retry; idx is the current 0-based
attempt index; err is the accumulated transport-error text.  A success
returns the artifact; a runtime_error returns its message at once; a
CompileException appends its message to err, followed by a newline exactly
when another attempt remains, and iterates.  Returns the result, the
number of attempts made, and the attempt events in order. -/
def retryLoop (attempt : Nat → AttemptOutcome) :
    Nat → Nat → String → CompileRes × Nat × List PEvent
  | 0, idx, err => (.errString err, idx, [])
  | fuel + 1, idx, err =>
    match attempt idx with
    | .success a => (.artifact a, idx + 1, [PEvent.attemptEv idx])
    | .fatal m => (.errString m, idx + 1, [PEvent.attemptEv idx])
    | .transport m =>
      let err2 := err ++ m
      let err3 := if 0 < fuel then err2 ++ "\n" else err2
      let r := retryLoop attempt fuel (idx + 1) err3
      (r.1, r.2.1, PEvent.attemptEv idx :: r.2.2)

/-- Model of CompilerPool::compile (extern-compiler.cpp lines 263 to 300):
a CompilerGuard acquires one lease on entry and releases it when the call
returns, with the whole retry loop in between. -/
def poolCompile (maxRetries : Nat) (attempt : Nat → AttemptOutcome) :
    CompileRes × Nat × List PEvent :=
  let r := retryLoop attempt (maxAttempts maxRetries) 0 ""
  (r.1, r.2.1, PEvent.acquireEv :: (r.2.2 ++ [PEvent.releaseEv]))

/-- Newline-separated concatenation, the shape of the accumulated
transport-error report. -/
def joinNl : List String → String
  | [] => ""
  | [s] => s
  | s :: rest => s ++ "\n" ++ joinNl rest

theorem lookup_setField (fs : List (String × JVal)) (k : String) (v : JVal) :
    (setField fs k v).lookup k = some v := by
  induction fs with
  | nil => simp [setField]
  | cons hd tl ih =>
    obtain ⟨k0, v0⟩ := hd
    by_cases h : k0 = k
    · simp [setField, h]
    · have hkk : (k == k0) = false := by
        simp only [beq_eq_false_iff_ne]
        exact fun hh => h hh.symm
      simp [setField, h, List.lookup, hkk, ih]

/-- C4: writeMessage sets the bytes field of the header to the body
length, writes the serialized header plus exactly one newline, then the
body bytes alone, then flushes; an empty body produces no body write; any
failed write raises a CompileException carrying errno. -/
theorem c4_writeMessage_protocol :
    (∀ header body e, ∃ chunks,
      writeMessage header body true true e =
        .ok (chunks, setField header "bytes" (.num body.length)) ∧
      (setField header "bytes" (.num body.length)).lookup "bytes" =
        some (.num body.length) ∧
      chunks.head? = some (.write
        (JVal.toJson (.obj (setField header "bytes" (.num body.length)))
          ++ "\n")) ∧
      chunksOut chunks =
        JVal.toJson (.obj (setField header "bytes" (.num body.length)))
          ++ "\n" ++ body ∧
      chunks.getLast? = some .flush ∧
      (body = "" → chunks =
        [.write (JVal.toJson (.obj (setField header "bytes" (.num 0)))
            ++ "\n"), .flush])) ∧
    (∀ header body e fpOk fwOk,
      fpOk = false ∨ (0 < body.length ∧ fwOk = false) →
      writeMessage header body fpOk fwOk e =
        .error (.compileExc ("error writing message: " ++ errnoStr e))) := by
  constructor
  · intro header body e
    by_cases hb : 0 < body.length
    · refine ⟨[.write (JVal.toJson
          (.obj (setField header "bytes" (.num body.length))) ++ "\n"),
          .write body, .flush],
        ?_, lookup_setField _ _ _, ?_, ?_, ?_, ?_⟩
      · simp [writeMessage, hb]
      · simp
      · simp [chunksOut, String.append_empty, String.append_assoc]
      · simp [List.getLast?]
      · intro hbody
        subst hbody
        simp at hb
    · have hb0 : body.length = 0 := by omega
      have hbody : body = "" := by
        cases body with
        | mk data =>
          simp [String.length] at hb0
          simp [hb0]
      refine ⟨[.write (JVal.toJson
          (.obj (setField header "bytes" (.num body.length))) ++ "\n"),
          .flush],
        ?_, lookup_setField _ _ _, ?_, ?_, ?_, ?_⟩
      · simp [writeMessage, hb]
      · simp
      · simp [chunksOut, hbody, String.append_empty]
      · simp [List.getLast?]
      · intro _
        simp [hb0]
  · intro header body e fpOk fwOk h
    rcases h with h | ⟨h1, h2⟩
    · subst h
      simp [writeMessage, throwErrnoMsg]
    · subst h2
      simp [writeMessage, throwErrnoMsg, h1]

theorem c4_witness :
    writeMessage [("type", JVal.str "code")] "ab" false true 7 =
      .error (.compileExc ("error writing message: " ++ errnoStr 7)) :=
  c4_writeMessage_protocol.2 [("type", JVal.str "code")] "ab" 7 false true
    (Or.inl rfl)

/-- C9: a reply frame of type hhas with a bytes field of zero never
produces an artifact: the single fread of the zero-size body returns a
value different from one, so readProgram raises a CompileException
carrying errno, and the stream is left where it was. -/
theorem c9_hhas_zero_bytes (fs : List (String × JVal)) (stream : List Char)
    (e : Nat)
    (ht : fs.lookup "type" = some (.str "hhas"))
    (hb : fs.lookup "bytes" = some (.num 0)) :
    freadItems 0 1 stream.length ≠ 1 ∧
    readProgramCore (.obj fs) stream e =
      (.error (.compileExc ("reading input program: " ++ errnoStr e)),
       stream) := by
  constructor
  · simp [freadItems]
  · simp [readProgramCore, getDefaultE, ht, hb, JVal.asStringE, JVal.asIntE,
          freadItems, throwErrnoMsg]

theorem c9_witness :
    readProgramCore (.obj [("type", JVal.str "hhas"), ("bytes", JVal.num 0)])
      "abc".data 3 =
      (.error (.compileExc ("reading input program: " ++ errnoStr 3)),
       "abc".data) :=
  (c9_hhas_zero_bytes [("type", JVal.str "hhas"), ("bytes", JVal.num 0)]
    "abc".data 3 rfl rfl).2

theorem readProgramCore_error_snd (fs : List (String × JVal))
    (stream : List Char) (e : Nat)
    (ht : fs.lookup "type" = some (.str "error")) :
    (readProgramCore (.obj fs) stream e).2 = stream := by
  simp only [readProgramCore, getDefaultE, ht, Option.getD_some, JVal.asStringE]
  cases hbv : (fs.lookup "bytes").getD (JVal.num 0) with
  | null => simp [JVal.asIntE]
  | bool b =>
    cases hev : (fs.lookup "error").getD (JVal.str "[no \x27error\x27 field]")
      with
    | null => simp [JVal.asIntE, JVal.asStringE, hev]
    | bool b2 => simp [JVal.asIntE, JVal.asStringE, hev]
    | num n2 => simp [JVal.asIntE, JVal.asStringE, hev]
    | str s2 => simp [JVal.asIntE, JVal.asStringE, hev]
    | obj fs2 => simp [JVal.asIntE, JVal.asStringE, hev]
  | num n =>
    cases hev : (fs.lookup "error").getD (JVal.str "[no \x27error\x27 field]")
      with
    | null => simp [JVal.asIntE, JVal.asStringE, hev]
    | bool b2 => simp [JVal.asIntE, JVal.asStringE, hev]
    | num n2 => simp [JVal.asIntE, JVal.asStringE, hev]
    | str s2 => simp [JVal.asIntE, JVal.asStringE, hev]
    | obj fs2 => simp [JVal.asIntE, JVal.asStringE, hev]
  | str s => simp [JVal.asIntE]
  | obj fs2 => simp [JVal.asIntE]

/-- C10: a reply frame of type error never reads body bytes from the pipe,
whatever the bytes field says, and when the header lacks an error field the
CompileError message is exactly the bracketed no-error-field text. -/
theorem c10_error_reply (fs : List (String × JVal)) (stream : List Char)
    (e : Nat)
    (ht : fs.lookup "type" = some (.str "error")) :
    (readProgramCore (.obj fs) stream e).2 = stream ∧
    (∀ b : Int, fs.lookup "bytes" = some (.num b) →
      fs.lookup "error" = none →
      (readProgramCore (.obj fs) stream e).1 =
        .error (.runtimeErr "[no \x27error\x27 field]")) := by
  refine ⟨readProgramCore_error_snd fs stream e ht, ?_⟩
  intro b hb he
  simp [readProgramCore, getDefaultE, ht, hb, he, JVal.asStringE, JVal.asIntE]

theorem c10_witness :
    (readProgramCore
        (.obj [("type", JVal.str "error"), ("bytes", JVal.num 5)])
        "abcd".data 3).2 = "abcd".data ∧
    (readProgramCore
        (.obj [("type", JVal.str "error"), ("bytes", JVal.num 5)])
        "abcd".data 3).1 =
      .error (.runtimeErr "[no \x27error\x27 field]") := by
  have h := c10_error_reply
    [("type", JVal.str "error"), ("bytes", JVal.num 5)] "abcd".data 3 rfl
  exact ⟨h.1, h.2 5 rfl rfl⟩

theorem retryLoop_transport_step (attempt : Nat → AttemptOutcome)
    (idx fuel : Nat) (err m : String)
    (h : attempt idx = .transport m) :
    retryLoop attempt (fuel + 1) idx err =
      ((retryLoop attempt fuel (idx + 1)
          (if 0 < fuel then (err ++ m) ++ "\n" else err ++ m)).1,
       (retryLoop attempt fuel (idx + 1)
          (if 0 < fuel then (err ++ m) ++ "\n" else err ++ m)).2.1,
       PEvent.attemptEv idx ::
         (retryLoop attempt fuel (idx + 1)
            (if 0 < fuel then (err ++ m) ++ "\n" else err ++ m)).2.2) := by
  conv_lhs => rw [retryLoop]
  rw [h]

theorem retryLoop_success (attempt : Nat → AttemptOutcome)
    (msg : Nat → String) (a : String) :
    ∀ (k fuel idx : Nat) (err : String),
      (∀ j, j < k → attempt (idx + j) = .transport (msg (idx + j))) →
      attempt (idx + k) = .success a →
      k < fuel →
      retryLoop attempt fuel idx err =
        (.artifact a, idx + k + 1,
         (List.range' idx (k + 1)).map PEvent.attemptEv) := by
  intro k
  induction k with
  | zero =>
    intro fuel idx err _ h2 h3
    cases fuel with
    | zero => omega
    | succ f =>
      simp only [Nat.add_zero] at h2
      simp [retryLoop, h2, List.range']
  | succ k ih =>
    intro fuel idx err h1 h2 h3
    cases fuel with
    | zero => omega
    | succ f =>
      have h0 : attempt idx = .transport (msg idx) := by
        have := h1 0 (by omega)
        simpa using this
      have hrec := ih f (idx + 1)
        (if 0 < f then (err ++ msg idx) ++ "\n" else err ++ msg idx)
        (fun j hj => by
          have := h1 (j + 1) (by omega)
          simpa [Nat.add_assoc, Nat.add_comm 1 j] using this)
        (by
          have heq : idx + (k + 1) = idx + 1 + k := by omega
          rw [← heq]; exact h2)
        (by omega)
      rw [retryLoop_transport_step attempt idx f err (msg idx) h0, hrec]
      dsimp only
      refine congrArg (Prod.mk _) ?_
      refine congrArg₂ Prod.mk (by omega) ?_
      simp [List.range'_succ]

theorem retryLoop_fatal (attempt : Nat → AttemptOutcome)
    (msg : Nat → String) (m : String) :
    ∀ (k fuel idx : Nat) (err : String),
      (∀ j, j < k → attempt (idx + j) = .transport (msg (idx + j))) →
      attempt (idx + k) = .fatal m →
      k < fuel →
      retryLoop attempt fuel idx err =
        (.errString m, idx + k + 1,
         (List.range' idx (k + 1)).map PEvent.attemptEv) := by
  intro k
  induction k with
  | zero =>
    intro fuel idx err _ h2 h3
    cases fuel with
    | zero => omega
    | succ f =>
      simp only [Nat.add_zero] at h2
      simp [retryLoop, h2, List.range']
  | succ k ih =>
    intro fuel idx err h1 h2 h3
    cases fuel with
    | zero => omega
    | succ f =>
      have h0 : attempt idx = .transport (msg idx) := by
        have := h1 0 (by omega)
        simpa using this
      have hrec := ih f (idx + 1)
        (if 0 < f then (err ++ msg idx) ++ "\n" else err ++ msg idx)
        (fun j hj => by
          have := h1 (j + 1) (by omega)
          simpa [Nat.add_assoc, Nat.add_comm 1 j] using this)
        (by
          have heq : idx + (k + 1) = idx + 1 + k := by omega
          rw [← heq]; exact h2)
        (by omega)
      rw [retryLoop_transport_step attempt idx f err (msg idx) h0, hrec]
      dsimp only
      refine congrArg (Prod.mk _) ?_
      refine congrArg₂ Prod.mk (by omega) ?_
      simp [List.range'_succ]

theorem retryLoop_all_transport (attempt : Nat → AttemptOutcome)
    (msg : Nat → String) :
    ∀ (fuel idx : Nat) (err : String),
      0 < fuel →
      (∀ j, j < fuel → attempt (idx + j) = .transport (msg (idx + j))) →
      retryLoop attempt fuel idx err =
        (.errString (err ++ joinNl ((List.range' idx fuel).map msg)),
         idx + fuel,
         (List.range' idx fuel).map PEvent.attemptEv) := by
  intro fuel
  induction fuel with
  | zero => omega
  | succ f ih =>
    intro idx err _ h
    have h0 : attempt idx = .transport (msg idx) := by
      have := h 0 (by omega)
      simpa using this
    cases f with
    | zero =>
      simp [retryLoop, h0, List.range', joinNl]
    | succ f2 =>
      have hrec := ih (idx + 1) ((err ++ msg idx) ++ "\n") (by omega)
        (fun j hj => by
          have := h (j + 1) (by omega)
          simpa [Nat.add_assoc, Nat.add_comm 1 j] using this)
      rw [retryLoop_transport_step attempt idx (f2 + 1) err (msg idx) h0]
      rw [if_pos (by omega : 0 < f2 + 1), hrec]
      dsimp only
      refine congrArg₂ Prod.mk ?_ ?_
      · have hne : (List.range' idx (f2 + 1 + 1)).map msg =
            msg idx :: (List.range' (idx + 1) (f2 + 1)).map msg := by
          simp [List.range'_succ]
        rw [hne]
        have hcons : ∃ y t, (List.range' (idx + 1) (f2 + 1)).map msg =
            y :: t := by
          simp [List.range'_succ]
        obtain ⟨y, t, hyt⟩ := hcons
        rw [hyt]
        simp [joinNl, String.append_assoc]
      · refine congrArg₂ Prod.mk (by omega) ?_
        simp [List.range'_succ]

theorem retryLoop_count (attempt : Nat → AttemptOutcome) :
    ∀ (fuel idx : Nat) (err : String),
      idx ≤ (retryLoop attempt fuel idx err).2.1 ∧
      (retryLoop attempt fuel idx err).2.1 ≤ idx + fuel ∧
      (0 < fuel → idx < (retryLoop attempt fuel idx err).2.1) ∧
      (retryLoop attempt fuel idx err).2.2 =
        (List.range' idx ((retryLoop attempt fuel idx err).2.1 - idx)).map
          PEvent.attemptEv := by
  intro fuel
  induction fuel with
  | zero =>
    intro idx err
    simp [retryLoop]
  | succ f ih =>
    intro idx err
    cases hA : attempt idx with
    | success a =>
      simp [retryLoop, hA, List.range']
    | fatal m =>
      simp [retryLoop, hA, List.range']
    | transport m =>
      rw [retryLoop_transport_step attempt idx f err m hA]
      dsimp only
      have hrec := ih (idx + 1)
        (if 0 < f then (err ++ m) ++ "\n" else err ++ m)
      obtain ⟨ha, hb, hc, hd⟩ := hrec
      refine ⟨by omega, by omega, fun _ => by omega, ?_⟩
      rw [hd]
      have hdiff : (retryLoop attempt f (idx + 1)
          (if 0 < f then (err ++ m) ++ "\n" else err ++ m)).2.1 - idx =
          ((retryLoop attempt f (idx + 1)
            (if 0 < f then (err ++ m) ++ "\n" else err ++ m)).2.1 -
              (idx + 1)) + 1 := by omega
      rw [hdiff, List.range'_succ]
      simp

/-- C1: one pool compile call acquires a single lease held around the
whole retry loop; at most max(1, maxRetries + 1) worker attempts run and
at least one does; maxRetries = 0 gives exactly one attempt; a first
success after transport failures returns its artifact; when every attempt
fails with a transport error the result is the accumulated messages
separated by newlines. -/
theorem c1_pool_retry_policy :
    (∀ N attempt, (poolCompile N attempt).2.2 =
        PEvent.acquireEv ::
          ((List.range' 0 (poolCompile N attempt).2.1).map PEvent.attemptEv
            ++ [PEvent.releaseEv])) ∧
    (∀ N attempt, 1 ≤ (poolCompile N attempt).2.1 ∧
        (poolCompile N attempt).2.1 ≤ max 1 (N + 1)) ∧
    (∀ attempt, (poolCompile 0 attempt).2.1 = 1) ∧
    (∀ (N : Nat) (attempt : Nat → AttemptOutcome) (msg : Nat → String)
        (k : Nat) (a : String),
        (∀ j, j < k → attempt j = .transport (msg j)) →
        attempt k = .success a → k < maxAttempts N →
        (poolCompile N attempt).1 = .artifact a ∧
        (poolCompile N attempt).2.1 = k + 1) ∧
    (∀ (N : Nat) (attempt : Nat → AttemptOutcome) (msg : Nat → String),
        (∀ j, j < maxAttempts N → attempt j = .transport (msg j)) →
        (poolCompile N attempt).1 =
          .errString (joinNl ((List.range' 0 (maxAttempts N)).map msg)) ∧
        (poolCompile N attempt).2.1 = maxAttempts N) := by
  have hmax : ∀ N, 0 < maxAttempts N := by
    intro N
    simp [maxAttempts]
  refine ⟨?_, ?_, ?_, ?_, ?_⟩
  · intro N attempt
    obtain ⟨_, _, _, hd⟩ := retryLoop_count attempt (maxAttempts N) 0 ""
    simp only [poolCompile]
    rw [hd]
    simp
  · intro N attempt
    obtain ⟨ha, hb, hc, _⟩ := retryLoop_count attempt (maxAttempts N) 0 ""
    have h1 := hc (hmax N)
    simp only [poolCompile, maxAttempts] at *
    omega
  · intro attempt
    obtain ⟨ha, hb, hc, _⟩ := retryLoop_count attempt (maxAttempts 0) 0 ""
    have h1 := hc (hmax 0)
    have h2 : maxAttempts 0 = 1 := by rfl
    simp only [poolCompile] at *
    omega
  · intro N attempt msg k a h1 h2 h3
    have h := retryLoop_success attempt msg a k (maxAttempts N) 0 ""
      (by simpa using h1) (by simpa using h2) h3
    simp [poolCompile, h]
  · intro N attempt msg h1
    have h := retryLoop_all_transport attempt msg (maxAttempts N) 0 ""
      (hmax N) (by simpa using h1)
    simp [poolCompile, h, String.empty_append]

theorem c1_witness :
    (∀ j, j < 1 →
      (fun i => if i = 0 then AttemptOutcome.transport "a"
                else AttemptOutcome.success "art") j =
        .transport ((fun _ => "a") j)) ∧
    (poolCompile 1 (fun i => if i = 0 then AttemptOutcome.transport "a"
        else AttemptOutcome.success "art")).1 = .artifact "art" ∧
    (poolCompile 1 (fun i => if i = 0 then AttemptOutcome.transport "a"
        else AttemptOutcome.success "art")).2.1 = 2 := by
  refine ⟨by decide, ?_⟩
  have h := c1_pool_retry_policy.2.2.2.1 1
    (fun i => if i = 0 then AttemptOutcome.transport "a"
              else AttemptOutcome.success "art")
    (fun _ => "a") 1 "art" (by decide) (by decide) (by decide)
  exact h

/-- C2: a reply frame of type error makes the worker compile fail with a
CompileError carrying the error field of the header; a frame of any type
other than hhas and error fails with CompileError of unknown message type
plus the type; and in the pool retry loop an attempt that fails this way
(a std::runtime_error) returns that message at once, with no attempt made
after it. -/
theorem c2_compile_error_non_transient :
    (∀ fs stream e (b : Int) m,
        (fs : List (String × JVal)).lookup "type" = some (.str "error") →
        fs.lookup "bytes" = some (.num b) →
        fs.lookup "error" = some (.str m) →
        (readProgramCore (.obj fs) stream e).1 = .error (.runtimeErr m)) ∧
    (∀ fs stream e (b : Int) t,
        (fs : List (String × JVal)).lookup "type" = some (.str t) →
        fs.lookup "bytes" = some (.num b) →
        t ≠ "hhas" → t ≠ "error" →
        (readProgramCore (.obj fs) stream e).1 =
          .error (.runtimeErr ("unknown message type, " ++ t))) ∧
    (∀ (N : Nat) (attempt : Nat → AttemptOutcome) (msg : Nat → String)
        (k : Nat) (m : String),
        (∀ j, j < k → attempt j = .transport (msg j)) →
        attempt k = .fatal m → k < maxAttempts N →
        (poolCompile N attempt).1 = .errString m ∧
        (poolCompile N attempt).2.1 = k + 1) := by
  refine ⟨?_, ?_, ?_⟩
  · intro fs stream e b m ht hb he
    simp [readProgramCore, getDefaultE, ht, hb, he, JVal.asStringE,
      JVal.asIntE]
  · intro fs stream e b t ht hb h1 h2
    simp [readProgramCore, getDefaultE, ht, hb, JVal.asStringE,
      JVal.asIntE, h1, h2]
  · intro N attempt msg k m h1 h2 h3
    have h := retryLoop_fatal attempt msg m k (maxAttempts N) 0 ""
      (by simpa using h1) (by simpa using h2) h3
    simp [poolCompile, h]

theorem c2_witness :
    (readProgramCore
        (.obj [("type", JVal.str "error"), ("bytes", JVal.num 0),
               ("error", JVal.str "syntax error at line 1")]) [] 3).1 =
      .error (.runtimeErr "syntax error at line 1") ∧
    (readProgramCore
        (.obj [("type", JVal.str "banana"), ("bytes", JVal.num 0)])
        [] 3).1 =
      .error (.runtimeErr ("unknown message type, " ++ "banana")) ∧
    (poolCompile 2 (fun i => if i = 0 then AttemptOutcome.transport "t"
        else AttemptOutcome.fatal "boom")).1 = .errString "boom" ∧
    (poolCompile 2 (fun i => if i = 0 then AttemptOutcome.transport "t"
        else AttemptOutcome.fatal "boom")).2.1 = 2 := by
  refine ⟨?_, ?_, ?_⟩
  · exact c2_compile_error_non_transient.1
      [("type", JVal.str "error"), ("bytes", JVal.num 0),
       ("error", JVal.str "syntax error at line 1")] [] 3 0
      "syntax error at line 1" rfl rfl rfl
  · exact c2_compile_error_non_transient.2.1
      [("type", JVal.str "banana"), ("bytes", JVal.num 0)] [] 3 0 "banana"
      rfl rfl (by decide) (by decide)
  · exact c2_compile_error_non_transient.2.2 2
      (fun i => if i = 0 then AttemptOutcome.transport "t"
                else AttemptOutcome.fatal "boom")
      (fun _ => "t") 1 "boom" (by decide) (by decide) (by decide)

theorem stop_pid (w : WorkerState) (k o : Bool) :
    (stop w k o).1.m_pid = kInvalidPid := by
  by_cases h : w.m_pid = kInvalidPid <;>
    simp [stop, h, stopLogStderrThread]

theorem stop_compilations_of_running (w : WorkerState) (k o : Bool)
    (h : w.m_pid ≠ kInvalidPid) : (stop w k o).1.m_compilations = 0 := by
  simp [stop, h, stopLogStderrThread]

theorem compileWorker_spawns (s : WorkerState) (t : Nat) (p : Int)
    (o : TransportOutcome) (h : s.m_pid = kInvalidPid) :
    (compileWorker s t p o).2.2 = true := by
  cases o <;> by_cases hr : t ≠ 0 ∧ s.m_compilations > t <;>
    simp [compileWorker, hr, isRunning, stop_pid, h]

/-- C3: when the transport phase of a worker compile fails with a
CompileException, the worker is stopped before the exception propagates:
the returned state has the sentinel pid, and any subsequent compile call
on that worker takes the spawn path and runs with the fresh pid. -/
theorem c3_transport_error_stops_worker (w : WorkerState) (thresh : Nat)
    (pid : Int) (m : String) :
    (compileWorker w thresh pid (.transportFail m)).1 =
      .error (.compileExc m) ∧
    (compileWorker w thresh pid (.transportFail m)).2.1.m_pid =
      kInvalidPid ∧
    (∀ t2 p2 o2,
      (compileWorker ((compileWorker w thresh pid
          (.transportFail m)).2.1) t2 p2 o2).2.2 = true) := by
  refine ⟨by simp [compileWorker], by simp [compileWorker, stop_pid], ?_⟩
  intro t2 p2 o2
  exact compileWorker_spawns _ t2 p2 o2 (by simp [compileWorker, stop_pid])

/-- C7: after a detach-mode pool shutdown no SIGTERM is sent and no wait
is performed on any worker pid: detaching resets the pid to the sentinel,
so the stop sequence run by the destructor returns before the kill and
wait steps, and the whole shutdown emits no process-management action. -/
theorem c7_detach_shutdown_no_signals :
    (∀ workers, shutdownActions workers true = []) ∧
    (∀ w k o, (detach_from_process w).m_pid = kInvalidPid ∧
        (stop (detach_from_process w) k o).2 = []) := by
  have hstop : ∀ w k o, (stop (detach_from_process w) k o).2 = [] := by
    intro w k o
    simp [stop, detach_from_process]
  refine ⟨?_, fun w k o => ⟨rfl, hstop w k o⟩⟩
  intro workers
  induction workers with
  | nil => rfl
  | cons c rest ih =>
    cases c with
    | none => exact ih
    | some w =>
      show (stop (detach_from_process w) true true).2 ++
        shutdownActions rest true = []
      rw [hstop w true true, ih]
      rfl

theorem stop_err (w : WorkerState) (k o : Bool) :
    (stop w k o).1.m_err = false := by
  by_cases h : w.m_pid = kInvalidPid <;>
    simp [stop, h, stopLogStderrThread]

theorem stopLogStderrThread_of_err_false (w : WorkerState)
    (h : w.m_err = false) : stopLogStderrThread w = w := by
  cases w
  simp_all [stopLogStderrThread]

theorem c8_counterexample :
    (detach_from_process
        (compileWorker {} 0 7 (.ok "p")).2.1).m_pid = kInvalidPid ∧
    (stop (detach_from_process
        (compileWorker {} 0 7 (.ok "p")).2.1) true true).1.m_in = true ∧
    (stop (detach_from_process
        (compileWorker {} 0 7 (.ok "p")).2.1) true true).1.m_out = true ∧
    (stop (detach_from_process
        (compileWorker {} 0 7 (.ok "p")).2.1) true
        true).1.m_compilations = 1 := by
  refine ⟨?_, ?_, ?_, ?_⟩ <;> rfl

/-- C8 (amended): for a never-started, running or already-stopped worker,
stop() leaves the sentinel pid, null handles and a zero compilation
counter, even when kill or the bounded wait fails, and stop is idempotent
with the second call performing no kill or wait; but a worker whose pid
was detached while its handles were open keeps its stdin and stdout
handles and its compilation counter, since stop returns at the sentinel
check after closing only stderr. -/
theorem c8_stop_reset (w : WorkerState) (k o : Bool) :
    (w.m_pid ≠ kInvalidPid →
      (stop w k o).1 = ⟨kInvalidPid, false, false, false, w.m_version, 0⟩) ∧
    (w.m_pid = kInvalidPid →
      (stop w k o).1 = { w with m_err := false } ∧ (stop w k o).2 = []) ∧
    (∀ k2 o2, (stop (stop w k o).1 k2 o2).1 = (stop w k o).1 ∧
      (stop (stop w k o).1 k2 o2).2 = []) := by
  refine ⟨?_, ?_, ?_⟩
  · intro h
    simp [stop, h, stopLogStderrThread]
  · intro h
    simp [stop, h, stopLogStderrThread]
  · intro k2 o2
    have hpid := stop_pid w k o
    have herr := stop_err w k o
    revert hpid herr
    generalize (stop w k o).1 = s
    intro hpid herr
    constructor
    · simp [stop, hpid, stopLogStderrThread_of_err_false s herr]
    · simp [stop, hpid]

theorem c8_witness :
    (stop ⟨7, true, true, true, "v", 5⟩ true false).1 =
      ⟨kInvalidPid, false, false, false, "v", 0⟩ := by
  exact (c8_stop_reset ⟨7, true, true, true, "v", 5⟩ true false).1
    (by decide)

theorem c6_counterexample :
    startHandshake (.ok "this is not json") (fun _ => none) =
      .error .parseError ∧
    (∀ s, Exc.parseError ≠ .badCompiler s) := by
  exact ⟨rfl, fun s h => by cases h⟩

/-- C6 (amended): inside start, only a readline failure (a
CompileException) is converted to BadCompilerException; a JSON parse
failure escapes the handshake unchanged as parse_error and a missing
version field as out_of_range, neither of which is a BadCompiler.  A
version field that is not a string is not necessarily a failure at all:
asString converts numeric and boolean values, so the handshake succeeds
with the converted text, and only a value asString cannot convert (an
object or null) raises TypeError, which also escapes unchanged. -/
theorem c6_handshake_errors (parse : String → Option JVal) :
    (∀ e, startHandshake (.error e) parse =
      .error (.badCompiler
        "Couldn\x27t read version message from external compiler")) ∧
    (∀ l, parse l = none →
      startHandshake (.ok l) parse = .error .parseError) ∧
    (∀ l fs, parse l = some (.obj fs) → fs.lookup "version" = none →
      startHandshake (.ok l) parse = .error .outOfRange) ∧
    (∀ l fs s, parse l = some (.obj fs) →
      fs.lookup "version" = some (.str s) →
      startHandshake (.ok l) parse = .ok s) ∧
    (∀ l fs (n : Int), parse l = some (.obj fs) →
      fs.lookup "version" = some (.num n) →
      startHandshake (.ok l) parse = .ok (toString n)) ∧
    (∀ l fs b, parse l = some (.obj fs) →
      fs.lookup "version" = some (.bool b) →
      startHandshake (.ok l) parse = .ok (cond b "true" "false")) ∧
    (∀ l fs fs2, parse l = some (.obj fs) →
      fs.lookup "version" = some (.obj fs2) →
      startHandshake (.ok l) parse = .error .typeError) ∧
    (∀ l fs, parse l = some (.obj fs) →
      fs.lookup "version" = some .null →
      startHandshake (.ok l) parse = .error .typeError) := by
  refine ⟨?_, ?_, ?_, ?_, ?_, ?_, ?_, ?_⟩
  · intro e
    simp [startHandshake, readVersion, throwErrnoMsg]
  · intro l h
    simp [startHandshake, readVersion, h]
  · intro l fs h1 h2
    simp [startHandshake, readVersion, h1, h2]
  · intro l fs s h1 h2
    simp [startHandshake, readVersion, h1, h2, JVal.asStringE]
  · intro l fs n h1 h2
    simp [startHandshake, readVersion, h1, h2, JVal.asStringE]
  · intro l fs b h1 h2
    simp [startHandshake, readVersion, h1, h2, JVal.asStringE]
  · intro l fs fs2 h1 h2
    simp [startHandshake, readVersion, h1, h2, JVal.asStringE]
  · intro l fs h1 h2
    simp [startHandshake, readVersion, h1, h2, JVal.asStringE]

theorem c6_witness :
    startHandshake (.ok "\x7b\x7d")
        (fun l => if l = "\x7b\x7d" then some (.obj []) else none) =
      .error .outOfRange ∧
    startHandshake (.ok "v3")
        (fun l => if l = "v3" then some (.obj [("version", .num 3)])
                  else none) =
      .ok "3" := by
  constructor
  · exact (c6_handshake_errors
        (fun l => if l = "\x7b\x7d" then some (.obj []) else none)).2.2.1
      "\x7b\x7d" [] (by simp) rfl
  · have h := (c6_handshake_errors
        (fun l => if l = "v3" then some (.obj [("version", JVal.num 3)])
                  else none)).2.2.2.2.1
      "v3" [("version", JVal.num 3)] 3 (by simp) rfl
    simpa using h

theorem scanSlots_of_countSome_pos :
    ∀ l : List (Option Nat), countSome l ≠ 0 →
      ∃ i w l2, scanSlots l = some (i, w, l2) ∧
        countSome l2 = countSome l - 1 ∧
        l2.length = l.length ∧
        l2[i]? = some none := by
  intro l
  induction l with
  | nil => intro h; simp [countSome] at h
  | cons c rest ih =>
    intro h
    cases c with
    | some w =>
      exact ⟨0, w, none :: rest, rfl, by simp [countSome], rfl, by simp⟩
    | none =>
      have h2 : countSome rest ≠ 0 := by simpa [countSome] using h
      obtain ⟨i, w, l2, h1, hc, hl, hg⟩ := ih h2
      refine ⟨i + 1, w, none :: l2, ?_, ?_, ?_, ?_⟩
      · simp [scanSlots, h1]
      · simpa [countSome] using hc
      · simp [hl]
      · simpa using hg

theorem countSome_set (l : List (Option Nat)) (i w : Nat)
    (h : l[i]? = some none) :
    countSome (l.set i (some w)) = countSome l + 1 := by
  induction l generalizing i with
  | nil => simp at h
  | cons c rest ih =>
    cases i with
    | zero =>
      simp only [List.getElem?_cons_zero, Option.some.injEq] at h
      subst h
      simp [countSome, List.set]
    | succ i2 =>
      simp only [List.getElem?_cons_succ] at h
      have hi := ih i2 h
      cases c <;> simp [countSome, List.set] at hi ⊢ <;> omega

/-- C5: the pool invariant (free count equals the number of non-empty
slots, which is at most the capacity) holds after start and is preserved
by getCompiler and releaseCompiler; whenever getCompiler observes a
nonzero free count, the slot scan finds a non-empty slot, so the
not_reached branch is unreachable, a worker is returned and its slot is
left empty. -/
theorem c5_pool_invariant :
    (∀ p cap, PoolInv p cap → p.m_freeCount ≠ 0 →
      ∃ i w p2, getCompiler p = .ok i w p2 ∧ PoolInv p2 cap ∧
        p2.m_compilers[i]? = some none) ∧
    (∀ p cap i w, PoolInv p cap → p.m_compilers[i]? = some none →
      PoolInv (releaseCompiler p i w) cap) ∧
    (∀ n, PoolInv (poolStart n) n) ∧
    (∀ p cap, PoolInv p cap → p.m_freeCount ≤ cap) := by
  refine ⟨?_, ?_, ?_, ?_⟩
  · intro p cap hInv hne
    obtain ⟨hfc, hlen⟩ := hInv
    have hc : countSome p.m_compilers ≠ 0 := by omega
    obtain ⟨i, w, l2, h1, hcount, hl, hg⟩ :=
      scanSlots_of_countSome_pos _ hc
    refine ⟨i, w, ⟨l2, p.m_freeCount - 1⟩, ?_, ⟨?_, ?_⟩, hg⟩
    · simp [getCompiler, hne, h1]
    · simp only []
      omega
    · simpa [hl] using hlen
  · intro p cap i w hInv hslot
    obtain ⟨hfc, hlen⟩ := hInv
    constructor
    · simp only [releaseCompiler, countSome_set _ _ w hslot]
      omega
    · simp [releaseCompiler, hlen]
  · intro n
    have hmap : ∀ l : List Nat, countSome (l.map fun i => some (i + 1)) =
        l.length := by
      intro l
      induction l with
      | nil => rfl
      | cons a t ih => simp [countSome] at ih ⊢; exact ih
    exact ⟨by simp [poolStart, hmap], by simp [poolStart]⟩
  · intro p cap hInv
    obtain ⟨hfc, hlen⟩ := hInv
    have hle := List.length_filter_le (fun o => o.isSome) p.m_compilers
    simp only [countSome] at hfc
    omega

theorem c5_witness :
    ∃ i w p2, getCompiler ⟨[none, some 5], 1⟩ = .ok i w p2 ∧
      PoolInv p2 2 ∧ p2.m_compilers[i]? = some none := by
  exact c5_pool_invariant.1 ⟨[none, some 5], 1⟩ 2 ⟨rfl, rfl⟩
    (by decide)

end ExternCompilerModel
